import Mathlib

/-!
Shallow embedding of `src/backend/scripts/toggle_logs.py`.

The script operates on the text of a fixed set of tracked files.  All of its
patterns are line-oriented (the multiline regexes anchor at `^` and, for the
disable pattern, at `$`; none of the patterns can span a newline except via
the leading `\s*`, which only absorbs whitespace-only prefixes and leaves the
per-line match count and the substitution result unchanged).  We therefore
model a file's content as a list of lines, each line a list of characters
containing no newline.
-/

namespace ToggleLogs

/-- A single line of a file, as a list of characters (no newline inside). -/
abbrev Line := List Char

/-- A file's text, split at newlines. -/
abbrev Content := List Line

/-- Whitespace characters matched by the regex class against characters that
can occur inside a single line (Python re `\s`, minus the newline, which
cannot occur inside a line of our representation). -/
def isWsChar (c : Char) : Bool :=
  c = ' ' || c = '\t' || c = '\r' || c = '\x0c' || c = '\x0b'

/-- Strip an exact literal from the front of a line: `dropLit p l = some r`
iff `l = p ++ r`. -/
def dropLit : List Char → Line → Option Line
  | [], l => some l
  | _ :: _, [] => none
  | p :: ps, c :: cs => if c = p then dropLit ps cs else none

/-- The six recognized call names, exactly the regex alternation
`(entry|exit|info|warn|error|debug)` of the script, in its order. -/
def sixNames : List Line :=
  [['e', 'n', 't', 'r', 'y'], ['e', 'x', 'i', 't'], ['i', 'n', 'f', 'o'],
   ['w', 'a', 'r', 'n'], ['e', 'r', 'r', 'o', 'r'], ['d', 'e', 'b', 'u', 'g']]

/-- The literal `Logger.` that precedes the name alternation in every
pattern of the script. -/
def loggerDot : Line := ['L', 'o', 'g', 'g', 'e', 'r', '.']

/-- The comment marker plus one space, `// `, inserted by the substitution
and required by the disabled pattern. -/
def marker : Line := ['/', '/', ' ']

/-- Ordered alternation: try each name followed immediately by an opening
parenthesis; return the remainder after the parenthesis of the first name
that is a prefix. -/
def tryNames : List Line → Line → Option Line
  | [], _ => none
  | n :: ns, r =>
    match dropLit (n ++ ['(']) r with
    | some r2 => some r2
    | none => tryNames ns r

/-- After `Logger.`, consume `(entry|exit|info|warn|error|debug)\(`;
returns the remainder after the parenthesis. -/
def matchSix (r : Line) : Option Line := tryNames sixNames r

/-- The tail of the disable pattern, `.+\);?$`, applied to what follows the
opening parenthesis: a nonempty argument text, then a closing parenthesis,
then an optional semicolon, then the end of the line.  Looking from the
right: the last character is `)` with something before it, or the last two
are `);` with something before them. -/
def closeOk (r : Line) : Bool :=
  match r.reverse with
  | c1 :: c2 :: rest => c1 = ')' || (c1 = ';' && c2 = ')' && !rest.isEmpty)
  | _ => false

/-- `disable_logging`'s active-statement pattern applied to one line:
`^(\s*)(Logger\.(entry|exit|info|warn|error|debug)\(.+\);?)$` (MULTILINE). -/
def activeMatch (l : Line) : Bool :=
  match dropLit loggerDot (l.dropWhile isWsChar) with
  | none => false
  | some r =>
    match matchSix r with
    | none => false
    | some r2 => closeOk r2

/-- The substitution `\1// \2` of `disable_logging` applied to one line:
group 1 is the (maximal) leading-whitespace run, group 2 the rest of the
line; unmatched lines pass through unchanged. -/
def disableLine (l : Line) : Line :=
  if activeMatch l then
    l.takeWhile isWsChar ++ marker ++ l.dropWhile isWsChar
  else l

/-- `logger_pattern.sub` over the whole file. -/
def disableContent (c : Content) : Content := c.map disableLine

/-- `len(logger_pattern.findall(content))` in `disable_logging`: the number
of lines matching the active pattern. -/
def countActive (c : Content) : Nat := (c.filter fun l => activeMatch l).length

/-- `check_status`'s enabled pattern applied to one line:
`^\s*Logger\.(entry|exit|info|warn|error|debug)\(` (MULTILINE). -/
def enabledLine (l : Line) : Bool :=
  match dropLit loggerDot (l.dropWhile isWsChar) with
  | none => false
  | some r => (matchSix r).isSome

/-- `check_status`'s disabled pattern applied to one line:
`^\s*// Logger\.(entry|exit|info|warn|error|debug)\(` (MULTILINE). -/
def disabledLine (l : Line) : Bool :=
  match dropLit (marker ++ loggerDot) (l.dropWhile isWsChar) with
  | none => false
  | some r => (matchSix r).isSome

/-- Number of lines counted as enabled by `check_status`. -/
def countEnabled (c : Content) : Nat := (c.filter fun l => enabledLine l).length

/-- Number of lines counted as disabled by `check_status`. -/
def countDisabled (c : Content) : Nat := (c.filter fun l => disabledLine l).length

/-- Does the unanchored pattern `Logger\.(entry|exit|info|warn|error|debug)\(`
of `enable_logging` match at the very start of `r`? -/
def startsCall (r : Line) : Bool :=
  match dropLit loggerDot r with
  | none => false
  | some r2 => (matchSix r2).isSome

/-- Number of occurrences of the unanchored call pattern within one line
(matches of `Logger\.<name>\(` never overlap, since the match text contains
no second capital L, so the regex findall count equals the number of
positions where a match starts). -/
def occCount : Line → Nat
  | [] => 0
  | c :: cs => (if startsCall (c :: cs) then 1 else 0) + occCount cs

/-- `len(logger_pattern.findall(content))` in `enable_logging`: occurrences
of the unanchored call pattern anywhere in the file. -/
def countOccs (c : Content) : Nat := (c.map occCount).sum

/-!
File-system model.  A tracked file is identified by its position in the fixed
list `AGENT_FILES`; for each we keep the bytes of the file itself (`none`
when absent from disk) and of its sibling `<file>.backup` (`none` when no
backup exists).
-/

/-- On-disk state of one tracked file and its backup sibling. -/
structure FileState where
  content : Option Content
  backup : Option Content
  deriving DecidableEq, Repr

/-- One iteration of `backup_files`: a missing file is skipped with a
warning; an existing file is copied over its backup (`shutil.copy2`). -/
def backupFile (fs : FileState) : FileState :=
  match fs.content with
  | none => fs
  | some c => { fs with backup := some c }

/-- One iteration of `restore_from_backups`: if the backup is missing the
file is reported and left untouched; otherwise the backup's bytes are copied
over the file. -/
def restoreFile (fs : FileState) : FileState :=
  match fs.backup with
  | none => fs
  | some b => { fs with content := some b }

/-- `backup_files`: iterate `backupFile` over the tracked set. -/
def backupAll (files : List FileState) : List FileState := files.map backupFile

/-- `restore_from_backups`: iterate over the tracked set, restoring each
file that has a backup and counting the restores. -/
def restoreAll (files : List FileState) : List FileState × Nat :=
  files.foldr
    (fun fs acc =>
      match fs.backup with
      | none => (fs :: acc.1, acc.2)
      | some b => ({ fs with content := some b } :: acc.1, acc.2 + 1))
    ([], 0)

/-- `disable_logging`: for each existing file, count the active-pattern
matches, rewrite with the substitution, and write the file back only when
the text changed, accumulating (files changed, statements changed). -/
def disableAll (files : List FileState) : List FileState × Nat × Nat :=
  files.foldr
    (fun fs acc =>
      match fs.content with
      | none => (fs :: acc.1, acc.2)
      | some c =>
        let m := countActive c
        let c2 := disableContent c
        if c ≠ c2 then
          ({ fs with content := some c2 } :: acc.1, acc.2.1 + 1, acc.2.2 + m)
        else (fs :: acc.1, acc.2))
    ([], 0, 0)

/-- The `--disable` action of `main`: `backup_files()` then
`disable_logging()`; returns the new state and `disable_logging`'s pair. -/
def disableRun (files : List FileState) : List FileState × Nat × Nat :=
  disableAll (backupAll files)

/-- `enable_logging`: restore every file from its backup, then recount the
unanchored call pattern over the files that exist afterward.  Returns the
new state and the pair (files restored, total pattern occurrences). -/
def enableRun (files : List FileState) : List FileState × Nat × Nat :=
  let r := restoreAll files
  (r.1, r.2,
    (r.1.map fun fs =>
      match fs.content with
      | none => 0
      | some c => countOccs c).sum)

/-!
Status computation of `check_status`.
-/

/-- Per-file classification printed by `check_status`. -/
inductive FileClass where
  | enabled
  | disabled
  | noLogs
  deriving DecidableEq, Repr

/-- Overall classification printed at the end of `check_status`. -/
inductive OverallClass where
  | enabled
  | disabled
  | noneFound
  deriving DecidableEq, Repr

/-- `" ENABLED" if enabled > disabled else " DISABLED" if disabled > 0 else
" NO LOGS"`. -/
def classifyFile (e d : Nat) : FileClass :=
  if e > d then .enabled else if d > 0 then .disabled else .noLogs

/-- Per-file classification from the file's text, as `check_status` computes
it from the two pattern counts. -/
def statusFile (c : Content) : FileClass :=
  classifyFile (countEnabled c) (countDisabled c)

/-- Aggregate `(total_enabled, total_disabled)` of `check_status`: missing
files are skipped with a warning and contribute nothing. -/
def statusTotals (files : List FileState) : Nat × Nat :=
  files.foldr
    (fun fs acc =>
      match fs.content with
      | none => acc
      | some c => (acc.1 + countEnabled c, acc.2 + countDisabled c))
    (0, 0)

/-- The final `if total_enabled > 0 and total_disabled == 0 … elif
total_disabled > 0 … else …` of `check_status`. -/
def classifyOverall (e d : Nat) : OverallClass :=
  if e > 0 ∧ d = 0 then .enabled else if d > 0 then .disabled else .noneFound

/-- Overall classification of a tracked-file set. -/
def statusOverall (files : List FileState) : OverallClass :=
  classifyOverall (statusTotals files).1 (statusTotals files).2

/-!
Per-file views of the iterations, used to relate the accumulating loops to
independent per-file actions.
-/

/-- The effect of one `disable_logging` iteration on one file's state (the
write is skipped when the text did not change, but then the rewritten text
equals the original, so the content is the rewrite either way). -/
def disableStep (fs : FileState) : FileState :=
  match fs.content with
  | none => fs
  | some c => { fs with content := some (disableContent c) }

/-- Contribution of one file to `disable_logging`'s files-changed total. -/
def changedCount (fs : FileState) : Nat :=
  match fs.content with
  | none => 0
  | some c => if c ≠ disableContent c then 1 else 0

/-- Contribution of one file to `disable_logging`'s statements total. -/
def stmtCount (fs : FileState) : Nat :=
  match fs.content with
  | none => 0
  | some c => if c ≠ disableContent c then countActive c else 0

/-- Contribution of one file to `check_status`'s `total_enabled`. -/
def enabledCnt (fs : FileState) : Nat :=
  match fs.content with
  | none => 0
  | some c => countEnabled c

/-- Contribution of one file to `check_status`'s `total_disabled`. -/
def disabledCnt (fs : FileState) : Nat :=
  match fs.content with
  | none => 0
  | some c => countDisabled c

/-- Contribution of one existing file to `enable_logging`'s recount. -/
def occCnt (fs : FileState) : Nat :=
  match fs.content with
  | none => 0
  | some c => countOccs c

/-- A concrete tracked file whose only line is a commented-out logging
statement, its backup holding the same text. -/
def commentedFile : FileState :=
  ⟨some [("// Logger.info(x);".data)], some [("// Logger.info(x);".data)]⟩

/-!
Lemmas about the pattern matcher.
-/

theorem dropLit_eq_some_iff (p : List Char) :
    ∀ l r : Line, dropLit p l = some r ↔ l = p ++ r := by
  induction p with
  | nil => intro l r; simp [dropLit]
  | cons p ps ih =>
    intro l r
    cases l with
    | nil => simp [dropLit]
    | cons c cs =>
      by_cases h : c = p
      · subst h; simp [dropLit, ih]
      · simp [dropLit, h]

theorem dropLit_self_append (p : List Char) (r : Line) : dropLit p (p ++ r) = some r :=
  (dropLit_eq_some_iff p (p ++ r) r).mpr rfl

theorem tryNames_some {ns : List Line} {r r2 : Line} (h : tryNames ns r = some r2) :
    ∃ n ∈ ns, r = n ++ '(' :: r2 := by
  induction ns with
  | nil => simp [tryNames] at h
  | cons n ns ih =>
    cases hd : dropLit (n ++ ['(']) r with
    | some r3 =>
      simp only [tryNames, hd] at h
      have h32 : r3 = r2 := by injection h
      subst h32
      refine ⟨n, by simp, ?_⟩
      have := (dropLit_eq_some_iff (n ++ ['(']) r r3).mp hd
      simpa using this
    | none =>
      simp only [tryNames, hd] at h
      obtain ⟨m, hm, hr⟩ := ih h
      exact ⟨m, by simp [hm], hr⟩

theorem matchSix_name {n : Line} (hn : n ∈ sixNames) (r : Line) :
    matchSix (n ++ '(' :: r) = some r := by
  simp only [sixNames, List.mem_cons, List.not_mem_nil, or_false] at hn
  rcases hn with rfl | rfl | rfl | rfl | rfl | rfl <;>
    simp [matchSix, tryNames, sixNames, dropLit]

theorem closeOk_iff {r : Line} :
    closeOk r = true ↔ ∃ s t : Line, s ≠ [] ∧ (t = [] ∨ t = [';']) ∧ r = s ++ ')' :: t := by
  constructor
  · intro h
    cases hv : r.reverse with
    | nil => rw [closeOk, hv] at h; simp at h
    | cons c1 v1 =>
      cases v1 with
      | nil => rw [closeOk, hv] at h; simp at h
      | cons c2 rest =>
        rw [closeOk, hv] at h
        have hr : r = ((c2 :: rest).reverse) ++ [c1] := by
          have := congrArg List.reverse hv
          simpa using this
        rcases Bool.or_eq_true_iff.mp h with h1 | h2
        · refine ⟨(c2 :: rest).reverse, [], by simp, Or.inl rfl, ?_⟩
          have hc1 : c1 = ')' := by simpa using h1
          simpa [hc1] using hr
        · obtain ⟨⟨hc1, hc2⟩, hrest⟩ :
              ((c1 = ';') ∧ (c2 = ')')) ∧ rest.isEmpty = false := by
            constructor
            · constructor
              · have := Bool.and_eq_true_iff.mp (Bool.and_eq_true_iff.mp h2).1
                simpa using this.1
              · have := Bool.and_eq_true_iff.mp (Bool.and_eq_true_iff.mp h2).1
                simpa using this.2
            · have := (Bool.and_eq_true_iff.mp h2).2
              simpa using this
          have hne : rest ≠ [] := by
            cases rest with
            | nil => simp at hrest
            | cons a as => simp
          refine ⟨rest.reverse, [';'], by simpa using hne, Or.inr rfl, ?_⟩
          subst hc1; subst hc2
          have : r = (rest.reverse ++ [')']) ++ [';'] := by simpa using hr
          simpa using this
  · rintro ⟨s, t, hs, ht, rfl⟩
    obtain ⟨a, s1, rfl⟩ : ∃ a s1, s = s1 ++ [a] := by
      rcases List.eq_nil_or_concat s with rfl | ⟨s1, a, h1⟩
      · exact absurd rfl hs
      · exact ⟨a, s1, by simpa [List.concat_eq_append] using h1⟩
    rcases ht with rfl | rfl
    · rw [closeOk]
      have hv : ((s1 ++ [a]) ++ ')' :: ([] : Line)).reverse = ')' :: a :: s1.reverse := by
        simp
      rw [hv]; simp
    · rw [closeOk]
      have hv : ((s1 ++ [a]) ++ ')' :: [';']).reverse = ';' :: ')' :: (s1 ++ [a]).reverse := by
        simp
      rw [hv]; simp

theorem dropWhile_ws_append {ws : Line} (h : ∀ c ∈ ws, isWsChar c = true) {a : Char}
    (ha : isWsChar a = false) (r : Line) :
    (ws ++ a :: r).dropWhile isWsChar = a :: r := by
  induction ws with
  | nil => simp [List.dropWhile, ha]
  | cons c cs ih =>
    have hc : isWsChar c = true := h c (by simp)
    have ih2 := ih fun x hx => h x (by simp [hx])
    simp [List.dropWhile, hc, ih2]

theorem takeWhile_ws_append {ws : Line} (h : ∀ c ∈ ws, isWsChar c = true) {a : Char}
    (ha : isWsChar a = false) (r : Line) :
    (ws ++ a :: r).takeWhile isWsChar = ws := by
  induction ws with
  | nil => simp [List.takeWhile, ha]
  | cons c cs ih =>
    have hc : isWsChar c = true := h c (by simp)
    have ih2 := ih fun x hx => h x (by simp [hx])
    simp [List.takeWhile, hc, ih2]

/-- The full characterization of the active-statement pattern of
`disable_logging`: a line matches iff, after a run of whitespace, it is
`Logger.` + one of the six names + `(` + a nonempty argument text + `)` +
an optional `;`, with nothing after. -/
theorem activeMatch_iff {l : Line} :
    activeMatch l = true ↔
      ∃ ws n s t : Line, (∀ c ∈ ws, isWsChar c = true) ∧ n ∈ sixNames ∧ s ≠ [] ∧
        (t = [] ∨ t = [';']) ∧ l = ws ++ loggerDot ++ n ++ '(' :: (s ++ ')' :: t) := by
  constructor
  · intro h
    rw [activeMatch] at h
    cases h1 : dropLit loggerDot (l.dropWhile isWsChar) with
    | none => rw [h1] at h; simp at h
    | some r =>
      rw [h1] at h
      have hr : (match matchSix r with
          | none => false
          | some r2 => closeOk r2) = true := h
      cases h2 : matchSix r with
      | none => rw [h2] at hr; simp at hr
      | some r2 =>
        rw [h2] at hr
        have hc : closeOk r2 = true := hr
        obtain ⟨n, hn, rfl⟩ := tryNames_some h2
        obtain ⟨s, t, hs, ht, rfl⟩ := closeOk_iff.mp hc
        refine ⟨l.takeWhile isWsChar, n, s, t, ?_, hn, hs, ht, ?_⟩
        · exact fun c hc => List.mem_takeWhile_imp hc
        · have hd := (dropLit_eq_some_iff loggerDot _ _).mp h1
          calc l = l.takeWhile isWsChar ++ l.dropWhile isWsChar :=
                (List.takeWhile_append_dropWhile isWsChar l).symm
            _ = l.takeWhile isWsChar ++ loggerDot ++ n ++ '(' :: (s ++ ')' :: t) := by
                rw [hd]; simp
  · rintro ⟨ws, n, s, t, hws, hn, hs, ht, rfl⟩
    have hL : isWsChar 'L' = false := by decide
    have hshape : ws ++ loggerDot ++ n ++ '(' :: (s ++ ')' :: t) =
        ws ++ 'L' :: (['o', 'g', 'g', 'e', 'r', '.'] ++ (n ++ '(' :: (s ++ ')' :: t))) := by
      simp [loggerDot]
    rw [activeMatch, hshape, dropWhile_ws_append hws hL]
    have hd : dropLit loggerDot
        ('L' :: (['o', 'g', 'g', 'e', 'r', '.'] ++ (n ++ '(' :: (s ++ ')' :: t)))) =
        some (n ++ '(' :: (s ++ ')' :: t)) := by
      have := dropLit_self_append loggerDot (n ++ '(' :: (s ++ ')' :: t))
      simpa [loggerDot] using this
    rw [hd]
    show (match matchSix (n ++ '(' :: (s ++ ')' :: t)) with
      | none => false
      | some r2 => closeOk r2) = true
    rw [matchSix_name hn]
    exact closeOk_iff.mpr ⟨s, t, hs, ht, rfl⟩

/-- Any line matched by the disable pattern is counted as enabled by
`check_status`'s pattern (the latter drops the `\(.+\);?$` tail). -/
theorem enabledLine_of_activeMatch {l : Line} (h : activeMatch l = true) :
    enabledLine l = true := by
  obtain ⟨ws, n, s, t, hws, hn, _, _, rfl⟩ := activeMatch_iff.mp h
  have hL : isWsChar 'L' = false := by decide
  have hshape : ws ++ loggerDot ++ n ++ '(' :: (s ++ ')' :: t) =
      ws ++ 'L' :: (['o', 'g', 'g', 'e', 'r', '.'] ++ (n ++ '(' :: (s ++ ')' :: t))) := by
    simp [loggerDot]
  rw [enabledLine, hshape, dropWhile_ws_append hws hL]
  have hd : dropLit loggerDot
      ('L' :: (['o', 'g', 'g', 'e', 'r', '.'] ++ (n ++ '(' :: (s ++ ')' :: t)))) =
      some (n ++ '(' :: (s ++ ')' :: t)) := by
    have := dropLit_self_append loggerDot (n ++ '(' :: (s ++ ')' :: t))
    simpa [loggerDot] using this
  rw [hd]
  show (matchSix (n ++ '(' :: (s ++ ')' :: t))).isSome = true
  rw [matchSix_name hn]
  rfl

/-- The unanchored pattern of `enable_logging` matches at the start of
`loggerDot ++ n ++ '(' :: r` for any of the six names. -/
theorem startsCall_shape {n : Line} (hn : n ∈ sixNames) (r : Line) :
    startsCall (loggerDot ++ (n ++ '(' :: r)) = true := by
  rw [startsCall, dropLit_self_append loggerDot]
  show (matchSix (n ++ '(' :: r)).isSome = true
  rw [matchSix_name hn]
  rfl

/-- A line that contains a start of the unanchored call pattern anywhere
has a positive occurrence count. -/
theorem occCount_pos {r : Line} (hr : startsCall r = true) :
    ∀ pre : Line, 1 ≤ occCount (pre ++ r) := by
  have hne : r ≠ [] := by
    intro h
    rw [h] at hr
    simp [startsCall, dropLit, loggerDot] at hr
  intro pre
  induction pre with
  | nil =>
    cases r with
    | nil => exact absurd rfl hne
    | cons c cs => simp [occCount, hr]
  | cons p ps ih =>
    calc 1 ≤ occCount (ps ++ r) := ih
      _ ≤ occCount (p :: (ps ++ r)) := by
          rw [occCount]
          omega

/-- Any line matched by the disable pattern contributes at least one
occurrence to `enable_logging`'s unanchored count. -/
theorem occCount_of_activeMatch {l : Line} (h : activeMatch l = true) :
    1 ≤ occCount l := by
  obtain ⟨ws, n, s, t, _, hn, _, _, rfl⟩ := activeMatch_iff.mp h
  have h1 : startsCall (loggerDot ++ (n ++ '(' :: (s ++ ')' :: t))) = true :=
    startsCall_shape hn _
  have h2 := occCount_pos h1 ws
  simpa using h2

/-!
Lemmas about the disable rewrite.
-/

/-- A line rewritten by the substitution no longer matches the active
pattern: after its (preserved) leading whitespace it starts with `/`. -/
theorem activeMatch_disableLine {l : Line} (h : activeMatch l = true) :
    activeMatch (disableLine l) = false := by
  rw [disableLine, if_pos h]
  have hws : ∀ c ∈ l.takeWhile isWsChar, isWsChar c = true :=
    fun c hc => List.mem_takeWhile_imp hc
  have hslash : isWsChar '/' = false := by decide
  have hshape : l.takeWhile isWsChar ++ marker ++ l.dropWhile isWsChar =
      l.takeWhile isWsChar ++ '/' :: ('/' :: ' ' :: l.dropWhile isWsChar) := by
    simp [marker]
  rw [activeMatch, hshape, dropWhile_ws_append hws hslash]
  have hd : dropLit loggerDot ('/' :: ('/' :: ' ' :: l.dropWhile isWsChar)) = none := by
    simp [loggerDot, dropLit]
  rw [hd]

/-- The substitution inserts three characters into a matched line, so a
matched line is never left equal to itself. -/
theorem disableLine_ne {l : Line} (h : activeMatch l = true) : disableLine l ≠ l := by
  intro heq
  have hlen := congrArg List.length heq
  rw [disableLine, if_pos h, List.length_append, List.length_append] at hlen
  have hm : marker.length = 3 := rfl
  rw [hm] at hlen
  have hsplit := congrArg List.length (List.takeWhile_append_dropWhile isWsChar l)
  rw [List.length_append] at hsplit
  omega

/-- The rewrite fixes a line iff the line does not match. -/
theorem disableLine_eq_self_iff {l : Line} : disableLine l = l ↔ activeMatch l = false := by
  constructor
  · intro h
    cases ha : activeMatch l with
    | false => rfl
    | true => exact absurd h (disableLine_ne ha)
  · intro h
    rw [disableLine, h]
    simp

/-- The rewrite is idempotent on a line. -/
theorem disableLine_idem (l : Line) : disableLine (disableLine l) = disableLine l := by
  cases ha : activeMatch l with
  | false => rw [disableLine_eq_self_iff.mpr ha, disableLine_eq_self_iff.mpr ha]
  | true => exact disableLine_eq_self_iff.mpr (activeMatch_disableLine ha)

/-- After the rewrite no line of the file matches the active pattern, so
`disable_logging` would find zero matches on a second pass. -/
theorem countActive_disableContent (c : Content) : countActive (disableContent c) = 0 := by
  rw [countActive, List.length_eq_zero, List.filter_eq_nil]
  intro l hl
  obtain ⟨l0, _, rfl⟩ := List.mem_map.mp hl
  cases ha : activeMatch l0 with
  | false => rw [disableLine_eq_self_iff.mpr ha]; simp [ha]
  | true => simp [activeMatch_disableLine ha]

/-- The whole-file rewrite is idempotent. -/
theorem disableContent_idem (c : Content) :
    disableContent (disableContent c) = disableContent c := by
  rw [disableContent, disableContent, List.map_map]
  exact List.map_congr_left fun l _ => disableLine_idem l

/-- The rewrite fixes a file iff it has no active-pattern match. -/
theorem disableContent_eq_self_iff {c : Content} :
    disableContent c = c ↔ countActive c = 0 := by
  rw [countActive, List.length_eq_zero, List.filter_eq_nil, disableContent]
  constructor
  · intro h l hl
    have : disableLine l = l := by
      have := List.ext_get?_iff.mp h
      obtain ⟨i, hi⟩ := List.mem_iff_get?.mp hl
      have hmap := List.get?_map disableLine c i
      rw [h, hi] at hmap
      injection hmap.symm
    simpa using disableLine_eq_self_iff.mp this
  · intro h
    have : ∀ l ∈ c, disableLine l = l := fun l hl =>
      disableLine_eq_self_iff.mpr (by simpa using h l hl)
    calc c.map disableLine = c.map id := List.map_congr_left this
      _ = c := List.map_id c

/-!
Structure of the per-file loops.
-/

/-- `disable_logging`'s loop acts on each file independently: the resulting
state is a per-file map, and the two totals are per-file sums. -/
theorem disableAll_eq (files : List FileState) :
    disableAll files =
      (files.map disableStep,
        (files.map changedCount).sum, (files.map stmtCount).sum) := by
  induction files with
  | nil => rfl
  | cons fs rest ih =>
    have hfold : disableAll (fs :: rest) =
        (match fs.content with
          | none => (fs :: (disableAll rest).1, (disableAll rest).2)
          | some c =>
            if c ≠ disableContent c then
              ({ fs with content := some (disableContent c) } :: (disableAll rest).1,
                (disableAll rest).2.1 + 1, (disableAll rest).2.2 + countActive c)
            else (fs :: (disableAll rest).1, (disableAll rest).2)) := rfl
    rw [hfold, ih]
    cases hfs : fs.content with
    | none =>
      have h1 : disableStep fs = fs := by rw [disableStep, hfs]
      have h2 : changedCount fs = 0 := by rw [changedCount, hfs]
      have h3 : stmtCount fs = 0 := by rw [stmtCount, hfs]
      simp [h1, h2, h3]
    | some c =>
      have h1 : disableStep fs = { fs with content := some (disableContent c) } := by
        rw [disableStep, hfs]
      have h2 : changedCount fs = if c ≠ disableContent c then 1 else 0 := by
        rw [changedCount, hfs]
      have h3 : stmtCount fs = if c ≠ disableContent c then countActive c else 0 := by
        rw [stmtCount, hfs]
      by_cases hne : c ≠ disableContent c
      · simp only [if_pos hne, h1, h2, h3, List.map_cons, List.sum_cons]
        refine congrArg₂ Prod.mk rfl (congrArg₂ Prod.mk ?_ ?_) <;> omega
      · simp only [if_neg hne, h1, h2, h3, List.map_cons, List.sum_cons]
        push_neg at hne
        have hfix : ({ fs with content := some (disableContent c) } : FileState) = fs := by
          cases fs with
          | mk fc fb =>
            simp only at hfs
            simp [hfs, ← hne]
        rw [hfix]
        simp

/-- `backup_files` acts per file. -/
theorem backupAll_eq (files : List FileState) : backupAll files = files.map backupFile := rfl

/-- `restore_from_backups` acts on each file independently and counts the
files whose backup exists. -/
theorem restoreAll_eq (files : List FileState) :
    restoreAll files =
      (files.map restoreFile, (files.filter fun fs => fs.backup.isSome).length) := by
  induction files with
  | nil => rfl
  | cons fs rest ih =>
    have hfold : restoreAll (fs :: rest) =
        (match fs.backup with
          | none => (fs :: (restoreAll rest).1, (restoreAll rest).2)
          | some b =>
            ({ fs with content := some b } :: (restoreAll rest).1,
              (restoreAll rest).2 + 1)) := rfl
    rw [hfold, ih]
    cases hfs : fs.backup with
    | none =>
      have h1 : restoreFile fs = fs := by rw [restoreFile, hfs]
      simp [List.filter_cons, hfs, h1]
    | some b =>
      have h1 : restoreFile fs = { fs with content := some b } := by rw [restoreFile, hfs]
      simp [List.filter_cons, hfs, h1]

/-- `check_status`'s aggregation is a pair of per-file sums; missing files
contribute nothing. -/
theorem statusTotals_eq (files : List FileState) :
    statusTotals files = ((files.map enabledCnt).sum, (files.map disabledCnt).sum) := by
  induction files with
  | nil => rfl
  | cons fs rest ih =>
    have hfold : statusTotals (fs :: rest) =
        (match fs.content with
          | none => statusTotals rest
          | some c =>
            ((statusTotals rest).1 + countEnabled c,
              (statusTotals rest).2 + countDisabled c)) := rfl
    rw [hfold, ih]
    cases hfs : fs.content with
    | none =>
      have h1 : enabledCnt fs = 0 := by rw [enabledCnt, hfs]
      have h2 : disabledCnt fs = 0 := by rw [disabledCnt, hfs]
      simp [h1, h2]
    | some c =>
      have h1 : enabledCnt fs = countEnabled c := by rw [enabledCnt, hfs]
      have h2 : disabledCnt fs = countDisabled c := by rw [disabledCnt, hfs]
      simp only [List.map_cons, List.sum_cons, h1, h2]
      refine congrArg₂ Prod.mk ?_ ?_ <;> omega

/-- Removing one list element removes exactly its contribution from a sum
over the list. -/
theorem sum_map_eraseIdx {α : Type} (f : α → Nat) :
    ∀ (l : List α) (i : Nat) (a : α), l.get? i = some a →
      (l.map f).sum = ((l.eraseIdx i).map f).sum + f a := by
  intro l
  induction l with
  | nil => intro i a h; simp at h
  | cons b bs ih =>
    intro i a h
    cases i with
    | zero =>
      have hb : b = a := by simpa using h
      subst hb
      simp [List.eraseIdx]
      omega
    | succ j =>
      have hj : bs.get? j = some a := by simpa using h
      have := ih j a hj
      simp only [List.eraseIdx, List.map_cons, List.sum_cons, this]
      omega

/-- `backup_files` never touches a file's content. -/
theorem backupFile_content (fs : FileState) : (backupFile fs).content = fs.content := by
  cases fs with
  | mk fc fb => cases fc <;> rfl

theorem changedCount_backupFile (fs : FileState) :
    changedCount (backupFile fs) = changedCount fs := by
  rw [changedCount, changedCount, backupFile_content]

theorem stmtCount_backupFile (fs : FileState) :
    stmtCount (backupFile fs) = stmtCount fs := by
  rw [stmtCount, stmtCount, backupFile_content]

/-- The state after the `--disable` action, file by file. -/
theorem disableRun_fst (files : List FileState) :
    (disableRun files).1 = files.map fun fs => disableStep (backupFile fs) := by
  rw [disableRun, backupAll_eq, disableAll_eq, List.map_map]
  rfl

/-- The pair returned by the `--disable` action, as per-file sums over the
original state. -/
theorem disableRun_counts (files : List FileState) :
    (disableRun files).2 = ((files.map changedCount).sum, (files.map stmtCount).sum) := by
  rw [disableRun, backupAll_eq, disableAll_eq, List.map_map, List.map_map, List.map_map]
  have h1 : files.map (changedCount ∘ backupFile) = files.map changedCount :=
    List.map_congr_left fun fs _ => changedCount_backupFile fs
  have h2 : files.map (stmtCount ∘ backupFile) = files.map stmtCount :=
    List.map_congr_left fun fs _ => stmtCount_backupFile fs
  rw [h1, h2]

/-- The state after `enable_logging`, file by file. -/
theorem enableRun_fst (files : List FileState) :
    (enableRun files).1 = files.map restoreFile := by
  have h : (enableRun files).1 = (restoreAll files).1 := rfl
  rw [h, restoreAll_eq]

/-- The files-restored count of `enable_logging`. -/
theorem enableRun_restored (files : List FileState) :
    (enableRun files).2.1 = (files.filter fun fs => fs.backup.isSome).length := by
  have h : (enableRun files).2.1 = (restoreAll files).2 := rfl
  rw [h, restoreAll_eq]

/-- Branch analysis of the per-file classification of `check_status`. -/
theorem classifyFile_enabled_iff (e d : Nat) :
    classifyFile e d = FileClass.enabled ↔ d < e := by
  rw [classifyFile]
  split_ifs with h1 h2 <;> simp <;> omega

theorem classifyFile_disabled_iff (e d : Nat) :
    classifyFile e d = FileClass.disabled ↔ 0 < d ∧ e ≤ d := by
  rw [classifyFile]
  split_ifs with h1 h2 <;> simp <;> omega

theorem classifyFile_noLogs_iff (e d : Nat) :
    classifyFile e d = FileClass.noLogs ↔ e = 0 ∧ d = 0 := by
  rw [classifyFile]
  split_ifs with h1 h2 <;> simp <;> omega

/-- Branch analysis of the overall classification of `check_status`. -/
theorem classifyOverall_enabled_iff (e d : Nat) :
    classifyOverall e d = OverallClass.enabled ↔ 0 < e ∧ d = 0 := by
  rw [classifyOverall]
  split_ifs with h1 h2 <;> simp <;> omega

theorem classifyOverall_disabled_iff (e d : Nat) :
    classifyOverall e d = OverallClass.disabled ↔ 0 < d := by
  rw [classifyOverall]
  split_ifs with h1 h2 <;> simp <;> omega

theorem classifyOverall_noneFound_iff (e d : Nat) :
    classifyOverall e d = OverallClass.noneFound ↔ e = 0 ∧ d = 0 := by
  rw [classifyOverall]
  split_ifs with h1 h2 <;> simp <;> omega

/-!
The claims.
-/

/-- C1, counterexample.  The claim says the second component of `enable()`'s
pair counts active-form statements only, commented lines not contributing.
On a tracked set whose one file consists of the single commented line
`// Logger.info(x);`, the code reports 1, while the line is active under
neither the status pattern nor the disable pattern. -/
theorem enable_count_includes_commented :
    (enableRun [commentedFile]).2.2 = 1 ∧
    ((enableRun [commentedFile]).1.map enabledCnt).sum = 0 ∧
    ((enableRun [commentedFile]).1.map stmtCount).sum = 0 ∧
    enabledLine ("// Logger.info(x);".data) = false ∧
    activeMatch ("// Logger.info(x);".data) = false := by
  decide

/-- C1 (amended): the second component of `enable()`'s returned pair equals
the number of occurrences of the unanchored pattern `Logger\.<name>\(`,
name among the six, anywhere in the tracked files as they exist after the
restore step — commented-out calls and mid-line calls included; missing
files contribute zero. -/
theorem enable_count_is_unanchored_total (files : List FileState) :
    (enableRun files).2.2 = (files.map fun fs => occCnt (restoreFile fs)).sum := by
  have h : (enableRun files).2.2 = ((restoreAll files).1.map occCnt).sum := rfl
  rw [h, restoreAll_eq]
  simp only [List.map_map]
  rfl

/-- C2: for every tracked file that exists, running the `--disable` action
and then `enable()` leaves its content byte-identical to the content before
the disable; and restore after backup alone already reproduces it. -/
theorem disable_enable_round_trip (files : List FileState) (i : Nat) (fs0 : FileState)
    (c : Content) (h1 : files.get? i = some fs0) (h2 : fs0.content = some c) :
    (∃ fs1, ((enableRun (disableRun files).1).1).get? i = some fs1 ∧
      fs1.content = some c) ∧
    (restoreFile (backupFile fs0)).content = some c := by
  obtain ⟨fc, fb⟩ := fs0
  simp only at h2
  subst h2
  constructor
  · refine ⟨restoreFile (disableStep (backupFile ⟨some c, fb⟩)), ?_, ?_⟩
    · rw [enableRun_fst, disableRun_fst, List.get?_map, List.get?_map, h1]
      rfl
    · rfl
  · rfl

/-- C3: the disable rewrite is idempotent on file content, a once-disabled
file has zero active-pattern matches, and a second consecutive `--disable`
run over any file set reports zero files and zero statements changed. -/
theorem disable_idempotent :
    (∀ c : Content, disableContent (disableContent c) = disableContent c) ∧
    (∀ c : Content, countActive (disableContent c) = 0) ∧
    (∀ files : List FileState, (disableRun (disableRun files).1).2 = (0, 0)) := by
  refine ⟨disableContent_idem, countActive_disableContent, ?_⟩
  intro files
  rw [disableRun_counts, disableRun_fst, Prod.mk.injEq]
  constructor
  · apply List.sum_eq_zero
    intro x hx
    rw [List.map_map] at hx
    obtain ⟨fs, _, rfl⟩ := List.mem_map.mp hx
    show changedCount (disableStep (backupFile fs)) = 0
    cases hfs : (backupFile fs).content with
    | none =>
      rw [changedCount, disableStep, hfs, hfs]
    | some c =>
      rw [disableStep, hfs]
      have hc : ({ backupFile fs with content := some (disableContent c) } :
          FileState).content = some (disableContent c) := rfl
      rw [changedCount, hc]
      simp [disableContent_idem]
  · apply List.sum_eq_zero
    intro x hx
    rw [List.map_map] at hx
    obtain ⟨fs, _, rfl⟩ := List.mem_map.mp hx
    show stmtCount (disableStep (backupFile fs)) = 0
    cases hfs : (backupFile fs).content with
    | none =>
      rw [stmtCount, disableStep, hfs, hfs]
    | some c =>
      rw [disableStep, hfs]
      have hc : ({ backupFile fs with content := some (disableContent c) } :
          FileState).content = some (disableContent c) := rfl
      rw [stmtCount, hc]
      simp [disableContent_idem]

/-- C4: `status()` classifies a file as ENABLED exactly when its active
count exceeds its disabled count, as DISABLED exactly when its disabled
count is positive and active does not exceed it, and as NO-LOGS otherwise
(3/0 is ENABLED, 0/2 is DISABLED, 0/0 is NO-LOGS); overall, ENABLED exactly
when aggregate active > 0 and aggregate disabled = 0, DISABLED exactly when
aggregate disabled > 0, and otherwise no statements are reported. -/
theorem status_classification :
    (∀ c : Content,
      (statusFile c = FileClass.enabled ↔ countDisabled c < countEnabled c) ∧
      (statusFile c = FileClass.disabled ↔
        0 < countDisabled c ∧ countEnabled c ≤ countDisabled c) ∧
      (statusFile c = FileClass.noLogs ↔ countEnabled c = 0 ∧ countDisabled c = 0)) ∧
    classifyFile 3 0 = FileClass.enabled ∧
    classifyFile 0 2 = FileClass.disabled ∧
    classifyFile 0 0 = FileClass.noLogs ∧
    (∀ files : List FileState,
      (statusOverall files = OverallClass.enabled ↔
        0 < (statusTotals files).1 ∧ (statusTotals files).2 = 0) ∧
      (statusOverall files = OverallClass.disabled ↔ 0 < (statusTotals files).2) ∧
      (statusOverall files = OverallClass.noneFound ↔
        (statusTotals files).1 = 0 ∧ (statusTotals files).2 = 0)) := by
  refine ⟨?_, by decide, by decide, by decide, ?_⟩
  · intro c
    exact ⟨classifyFile_enabled_iff _ _, classifyFile_disabled_iff _ _,
      classifyFile_noLogs_iff _ _⟩
  · intro files
    exact ⟨classifyOverall_enabled_iff _ _, classifyOverall_disabled_iff _ _,
      classifyOverall_noneFound_iff _ _⟩

/-- C5: the disable rewrite keeps the number of lines, passes every
unmatched line through unchanged, and on a matched line only inserts the
comment marker plus a single space between the leading whitespace and the
call: the leading whitespace is reproduced verbatim and the rest of the
line follows the marker unchanged. -/
theorem disable_frame (c : Content) (i : Nat) (l : Line) (h : c.get? i = some l) :
    (disableContent c).length = c.length ∧
    (activeMatch l = false → (disableContent c).get? i = some l) ∧
    (activeMatch l = true →
      (disableContent c).get? i =
        some (l.takeWhile isWsChar ++ marker ++ l.dropWhile isWsChar) ∧
      (disableLine l).takeWhile isWsChar = l.takeWhile isWsChar ∧
      (disableLine l).dropWhile isWsChar = marker ++ l.dropWhile isWsChar) := by
  refine ⟨List.length_map c disableLine, ?_, ?_⟩
  · intro ha
    rw [disableContent, List.get?_map, h]
    show some (disableLine l) = some l
    rw [disableLine_eq_self_iff.mpr ha]
  · intro ha
    have hws : ∀ ch ∈ l.takeWhile isWsChar, isWsChar ch = true :=
      fun ch hc => List.mem_takeWhile_imp hc
    have hslash : isWsChar '/' = false := by decide
    have hshape : l.takeWhile isWsChar ++ marker ++ l.dropWhile isWsChar =
        l.takeWhile isWsChar ++ '/' :: ('/' :: ' ' :: l.dropWhile isWsChar) := by
      simp [marker]
    refine ⟨?_, ?_, ?_⟩
    · rw [disableContent, List.get?_map, h]
      show some (disableLine l) = _
      rw [disableLine, if_pos ha]
    · rw [disableLine, if_pos ha, hshape, takeWhile_ws_append hws hslash]
    · rw [disableLine, if_pos ha, hshape, dropWhile_ws_append hws hslash]
      simp [marker]

/-- C6, counterexample.  The claim requires the statement terminator for a
line to be recognized, but the pattern's `;?` makes it optional: the line
`Logger.info(1)` contains no semicolon at all, yet matches. -/
theorem active_without_terminator :
    activeMatch ("Logger.info(1)".data) = true ∧
    ';' ∉ ("Logger.info(1)".data) := by
  decide

/-- C6 (amended): a line is recognized as an active statement iff, after
optional leading whitespace, it consists of `Logger.` plus one of the six
recognized names, an opening parenthesis, a nonempty argument text, a
closing parenthesis, and an OPTIONAL statement terminator, with nothing
else on the line; no name outside the six is matched, and a statement
whose closing parenthesis is not on the same line is not recognized. -/
theorem active_statement_characterization (l : Line) :
    activeMatch l = true ↔
      ∃ ws n s t : Line, (∀ ch ∈ ws, isWsChar ch = true) ∧ n ∈ sixNames ∧ s ≠ [] ∧
        (t = [] ∨ t = [';']) ∧ l = ws ++ loggerDot ++ n ++ '(' :: (s ++ ')' :: t) :=
  activeMatch_iff

/-- C7: the `--disable` action backs up every tracked file that exists,
before mutating it, whatever its match count; running it twice without an
intervening enable leaves the backup holding the already-disabled text. -/
theorem backup_unconditional_and_overwritten (files : List FileState) (i : Nat)
    (fs0 : FileState) (c : Content) (h1 : files.get? i = some fs0)
    (h2 : fs0.content = some c) :
    (∃ fs1, ((disableRun files).1).get? i = some fs1 ∧ fs1.backup = some c) ∧
    (∃ fs2, ((disableRun (disableRun files).1).1).get? i = some fs2 ∧
      fs2.backup = some (disableContent c)) := by
  obtain ⟨fc, fb⟩ := fs0
  simp only at h2
  subst h2
  constructor
  · refine ⟨disableStep (backupFile ⟨some c, fb⟩), ?_, ?_⟩
    · rw [disableRun_fst, List.get?_map, h1]
      rfl
    · rfl
  · refine ⟨disableStep (backupFile (disableStep (backupFile ⟨some c, fb⟩))), ?_, ?_⟩
    · rw [disableRun_fst, disableRun_fst, List.get?_map, List.get?_map, h1]
      rfl
    · rfl

/-- C8: a tracked file absent from disk is skipped by the `--disable`
action: its state is untouched, it contributes to neither total (the totals
equal those of the run without it), and every other tracked file is still
processed exactly as the per-file action prescribes. -/
theorem missing_file_skipped (files : List FileState) (i : Nat) (fs0 : FileState)
    (h1 : files.get? i = some fs0) (h2 : fs0.content = none) :
    ((disableRun files).1).get? i = some fs0 ∧
    (disableRun files).2 = (disableRun (files.eraseIdx i)).2 ∧
    statusTotals files = statusTotals (files.eraseIdx i) ∧
    (∀ j fsj, files.get? j = some fsj →
      ((disableRun files).1).get? j = some (disableStep (backupFile fsj))) := by
  obtain ⟨fc, fb⟩ := fs0
  simp only at h2
  subst h2
  refine ⟨?_, ?_, ?_, ?_⟩
  · rw [disableRun_fst, List.get?_map, h1]
    rfl
  · rw [disableRun_counts, disableRun_counts, Prod.mk.injEq]
    have hch : changedCount ⟨none, fb⟩ = 0 := rfl
    have hst : stmtCount ⟨none, fb⟩ = 0 := rfl
    constructor
    · rw [sum_map_eraseIdx changedCount files i _ h1, hch]
      omega
    · rw [sum_map_eraseIdx stmtCount files i _ h1, hst]
      omega
  · rw [statusTotals_eq, statusTotals_eq, Prod.mk.injEq]
    have hen : enabledCnt ⟨none, fb⟩ = 0 := rfl
    have hdi : disabledCnt ⟨none, fb⟩ = 0 := rfl
    constructor
    · rw [sum_map_eraseIdx enabledCnt files i _ h1, hen]
      omega
    · rw [sum_map_eraseIdx disabledCnt files i _ h1, hdi]
      omega
  · intro j fsj hj
    rw [disableRun_fst, List.get?_map, hj]
    rfl

/-- C9: a tracked file with no backup is reported and left untouched by
`enable()` — the run continues — and the files-restored total equals
exactly the number of tracked files whose backup exists. -/
theorem missing_backup_skipped (files : List FileState) (i : Nat) (fs0 : FileState)
    (h1 : files.get? i = some fs0) (h2 : fs0.backup = none) :
    ((enableRun files).1).get? i = some fs0 ∧
    (enableRun files).2.1 = (files.filter fun fs => fs.backup.isSome).length := by
  constructor
  · rw [enableRun_fst, List.get?_map, h1]
    show some (restoreFile fs0) = some fs0
    rw [restoreFile, h2]
  · exact enableRun_restored files

/-- C10, counterexample.  The three recognizers do not agree: the line
`Logger.info();` is counted as enabled by `status()` but is not matched by
`disable()`'s pattern (empty argument), and the line `// Logger.info(x);`
is counted once by `enable()`'s unanchored pattern but is active for
neither of the other two. -/
theorem recognizers_disagree :
    enabledLine ("Logger.info();".data) = true ∧
    activeMatch ("Logger.info();".data) = false ∧
    occCount ("// Logger.info(x);".data) = 1 ∧
    enabledLine ("// Logger.info(x);".data) = false ∧
    activeMatch ("// Logger.info(x);".data) = false := by
  decide

/-- C10 (amended): the recognizers are nested rather than equal — every
line matched by `disable()`'s active pattern is counted as enabled by
`status()`'s pattern and contains at least one occurrence counted by
`enable()`'s unanchored pattern; the reverse inclusions fail. -/
theorem recognizer_containment (l : Line) (h : activeMatch l = true) :
    enabledLine l = true ∧ 1 ≤ occCount l :=
  ⟨enabledLine_of_activeMatch h, occCount_of_activeMatch h⟩

/-!
Witnesses: the hypothesis-bearing claim theorems instantiated at concrete
inputs.
-/

/-- C2 witness: one tracked file holding the single indented statement
`  Logger.info(x);`. -/
theorem disable_enable_round_trip_witness :
    (∃ fs1,
      ((enableRun (disableRun
        [({ content := some [("  Logger.info(x);".data)], backup := none } :
          FileState)]).1).1).get? 0 = some fs1 ∧
      fs1.content = some [("  Logger.info(x);".data)]) ∧
    (restoreFile (backupFile
      ({ content := some [("  Logger.info(x);".data)], backup := none } :
        FileState))).content = some [("  Logger.info(x);".data)] :=
  disable_enable_round_trip
    [({ content := some [("  Logger.info(x);".data)], backup := none } : FileState)]
    0 _ _ rfl rfl

/-- C5 witness: a file whose line 0 is `  Logger.info(x);`. -/
theorem disable_frame_witness :
    (disableContent [("  Logger.info(x);".data)]).length =
      [("  Logger.info(x);".data)].length ∧
    (activeMatch ("  Logger.info(x);".data) = false →
      (disableContent [("  Logger.info(x);".data)]).get? 0 =
        some ("  Logger.info(x);".data)) ∧
    (activeMatch ("  Logger.info(x);".data) = true →
      (disableContent [("  Logger.info(x);".data)]).get? 0 =
        some (("  Logger.info(x);".data).takeWhile isWsChar ++ marker ++
          ("  Logger.info(x);".data).dropWhile isWsChar) ∧
      (disableLine ("  Logger.info(x);".data)).takeWhile isWsChar =
        ("  Logger.info(x);".data).takeWhile isWsChar ∧
      (disableLine ("  Logger.info(x);".data)).dropWhile isWsChar =
        marker ++ ("  Logger.info(x);".data).dropWhile isWsChar) :=
  disable_frame [("  Logger.info(x);".data)] 0 ("  Logger.info(x);".data) rfl

/-- C7 witness: one tracked existing file with zero active-pattern matches
(content `hello`), still backed up by the `--disable` action. -/
theorem backup_unconditional_witness :
    (∃ fs1,
      ((disableRun [({ content := some [("hello".data)], backup := none } :
        FileState)]).1).get? 0 = some fs1 ∧ fs1.backup = some [("hello".data)]) ∧
    (∃ fs2,
      ((disableRun (disableRun
        [({ content := some [("hello".data)], backup := none } :
          FileState)]).1).1).get? 0 = some fs2 ∧
      fs2.backup = some (disableContent [("hello".data)])) :=
  backup_unconditional_and_overwritten
    [({ content := some [("hello".data)], backup := none } : FileState)]
    0 _ _ rfl rfl

/-- C8 witness: a two-file set whose first tracked file is absent. -/
theorem missing_file_skipped_witness :
    ((disableRun [({ content := none, backup := none } : FileState),
        ({ content := some [("Logger.warn(y);".data)], backup := none } :
          FileState)]).1).get? 0 =
      some ({ content := none, backup := none } : FileState) ∧
    (disableRun [({ content := none, backup := none } : FileState),
        ({ content := some [("Logger.warn(y);".data)], backup := none } :
          FileState)]).2 =
      (disableRun ([({ content := none, backup := none } : FileState),
        ({ content := some [("Logger.warn(y);".data)], backup := none } :
          FileState)].eraseIdx 0)).2 ∧
    statusTotals [({ content := none, backup := none } : FileState),
        ({ content := some [("Logger.warn(y);".data)], backup := none } :
          FileState)] =
      statusTotals ([({ content := none, backup := none } : FileState),
        ({ content := some [("Logger.warn(y);".data)], backup := none } :
          FileState)].eraseIdx 0) ∧
    (∀ j fsj,
      [({ content := none, backup := none } : FileState),
        ({ content := some [("Logger.warn(y);".data)], backup := none } :
          FileState)].get? j = some fsj →
      ((disableRun [({ content := none, backup := none } : FileState),
        ({ content := some [("Logger.warn(y);".data)], backup := none } :
          FileState)]).1).get? j = some (disableStep (backupFile fsj))) :=
  missing_file_skipped
    [({ content := none, backup := none } : FileState),
      ({ content := some [("Logger.warn(y);".data)], backup := none } : FileState)]
    0 _ rfl rfl

/-- C9 witness: one tracked file with no backup. -/
theorem missing_backup_skipped_witness :
    ((enableRun [({ content := some [("Logger.warn(y);".data)], backup := none } :
        FileState)]).1).get? 0 =
      some ({ content := some [("Logger.warn(y);".data)], backup := none } :
        FileState) ∧
    (enableRun [({ content := some [("Logger.warn(y);".data)], backup := none } :
        FileState)]).2.1 =
      ([({ content := some [("Logger.warn(y);".data)], backup := none } :
        FileState)].filter fun fs => fs.backup.isSome).length :=
  missing_backup_skipped
    [({ content := some [("Logger.warn(y);".data)], backup := none } : FileState)]
    0 _ rfl rfl

/-- C10 witness: the line `Logger.info(x);` is matched by the disable
pattern, counted enabled by the status pattern, and counted once by the
unanchored pattern. -/
theorem recognizer_containment_witness :
    enabledLine ("Logger.info(x);".data) = true ∧
    1 ≤ occCount ("Logger.info(x);".data) :=
  recognizer_containment ("Logger.info(x);".data) (by decide)

end ToggleLogs
